import Mathlib

/-!
Verification development for the postgres-mcp-server repository.

The Python modules `validators.py`, `formatters.py`, `history.py`,
`types.py` and `tools.py` are shallowly embedded below.  Strings are
modelled as Lean `String`/`List Char` (the embedding of the regular
expressions used by the source treats word characters and whitespace at
the ASCII level, which covers every character class mentioned by the
patterns of the source).  Python floats and `decimal.Decimal` values are
carried as rationals: IEEE-754 rounding and float-to-text rendering are
abstracted, no property proved here depends on them.  Wall-clock time
(`time.time()`, `datetime.now()`) is passed in as an explicit parameter.
-/

namespace PostgresMcp

/-- Python `datetime.datetime` (naive): year, month, day, hour, minute,
second, microsecond. -/
structure PyDateTime where
  year : Nat
  month : Nat
  day : Nat
  hour : Nat
  minute : Nat
  second : Nat
  microsecond : Nat
deriving DecidableEq, Repr

/-- Python `datetime.date`. -/
structure PyDate where
  year : Nat
  month : Nat
  day : Nat
deriving DecidableEq, Repr

/-- Scalar values a database cell can hold, mirroring the types that
`serialize_value` in formatters.py dispatches on.  `pyFloat` and
`pyDecimal` carry a rational; the IEEE-754 rounding performed by
`float(Decimal)` is abstracted (no claim depends on float values). -/
inductive PyVal where
  | pyNone
  | pyBool (b : Bool)
  | pyInt (n : Int)
  | pyFloat (x : Rat)
  | pyStr (s : String)
  | pyBytes (bs : List Nat)
  | pyDecimal (d : Rat)
  | pyDatetime (dt : PyDateTime)
  | pyDate (d : PyDate)
deriving DecidableEq, Repr

/-- Left-pad a numeral string with zeros to the given width. -/
def padZero (width : Nat) (s : String) : String :=
  (List.replicate (width - s.length) '0').asString ++ s

/-- Python `date.isoformat()`: YYYY-MM-DD. -/
def PyDate.isoformat (d : PyDate) : String :=
  padZero 4 (toString d.year) ++ "-" ++ padZero 2 (toString d.month) ++ "-" ++
    padZero 2 (toString d.day)

/-- Python `datetime.isoformat()`: YYYY-MM-DDTHH:MM:SS with a
".ffffff" fractional part only when the microsecond field is nonzero. -/
def PyDateTime.isoformat (dt : PyDateTime) : String :=
  padZero 4 (toString dt.year) ++ "-" ++ padZero 2 (toString dt.month) ++ "-" ++
    padZero 2 (toString dt.day) ++ "T" ++ padZero 2 (toString dt.hour) ++ ":" ++
    padZero 2 (toString dt.minute) ++ ":" ++ padZero 2 (toString dt.second) ++
    (if dt.microsecond = 0 then "" else "." ++ padZero 6 (toString dt.microsecond))

/-- Unicode replacement character U+FFFD, emitted by
`bytes.decode("utf-8", errors="replace")` for undecodable input. -/
def replacementChar : Char := Char.ofNat 0xFFFD

/-- UTF-8 decoding with the replacement-character policy of
`bytes.decode("utf-8", errors="replace")`: well-formed sequences decode
to their code point, ill-formed bytes become U+FFFD. -/
def decodeUtf8Replace : List Nat → List Char
  | [] => []
  | b :: rest =>
    if b < 0x80 then Char.ofNat b :: decodeUtf8Replace rest
    else if 0xC2 ≤ b ∧ b ≤ 0xDF then
      match rest with
      | b2 :: rest2 =>
        if 0x80 ≤ b2 ∧ b2 ≤ 0xBF then
          Char.ofNat ((b - 0xC0) * 64 + (b2 - 0x80)) :: decodeUtf8Replace rest2
        else replacementChar :: decodeUtf8Replace (b2 :: rest2)
      | [] => [replacementChar]
    else if 0xE0 ≤ b ∧ b ≤ 0xEF then
      match rest with
      | b2 :: b3 :: rest3 =>
        if (0x80 ≤ b2 ∧ b2 ≤ 0xBF) ∧ (0x80 ≤ b3 ∧ b3 ≤ 0xBF) then
          let n := (b - 0xE0) * 4096 + (b2 - 0x80) * 64 + (b3 - 0x80)
          if 0x800 ≤ n ∧ (n < 0xD800 ∨ 0xDFFF < n) then
            Char.ofNat n :: decodeUtf8Replace rest3
          else replacementChar :: decodeUtf8Replace rest3
        else replacementChar :: decodeUtf8Replace (b2 :: b3 :: rest3)
      | _ => [replacementChar]
    else if 0xF0 ≤ b ∧ b ≤ 0xF4 then
      match rest with
      | b2 :: b3 :: b4 :: rest4 =>
        if (0x80 ≤ b2 ∧ b2 ≤ 0xBF) ∧ (0x80 ≤ b3 ∧ b3 ≤ 0xBF) ∧ (0x80 ≤ b4 ∧ b4 ≤ 0xBF) then
          let n := (b - 0xF0) * 262144 + (b2 - 0x80) * 4096 + (b3 - 0x80) * 64 + (b4 - 0x80)
          if 0x10000 ≤ n ∧ n ≤ 0x10FFFF then
            Char.ofNat n :: decodeUtf8Replace rest4
          else replacementChar :: decodeUtf8Replace rest4
        else replacementChar :: decodeUtf8Replace (b2 :: b3 :: b4 :: rest4)
      | _ => [replacementChar]
    else replacementChar :: decodeUtf8Replace rest
termination_by bs => bs.length
decreasing_by all_goals simp [List.length] <;> omega

/-- Embeds `serialize_value` from formatters.py: datetime/date become their ISO
string, Decimal becomes a float, bytes become UTF-8 text with
replacement, None stays None, every other value passes through. -/
def serialize_value : PyVal → PyVal
  | .pyDatetime dt => .pyStr dt.isoformat
  | .pyDate d => .pyStr d.isoformat
  | .pyDecimal d => .pyFloat d
  | .pyBytes bs => .pyStr (decodeUtf8Replace bs).asString
  | .pyNone => .pyNone
  | v => v

/-- Python `str()` on the scalars above.  The branches for values that
cannot reach the formatters after `serialize_value` (bytes, Decimal,
datetime, date) are best-effort, as is the float rendering. -/
def pyStrOfVal : PyVal → String
  | .pyNone => "None"
  | .pyBool b => if b then "True" else "False"
  | .pyInt n => toString n
  | .pyFloat x => toString x
  | .pyStr s => s
  | .pyBytes bs => toString bs
  | .pyDecimal d => toString d
  | .pyDatetime dt => dt.isoformat
  | .pyDate d => d.isoformat

/-- A result row: a Python dict from column name to value, with
insertion order preserved (as Python dicts do). -/
abbrev Row := List (String × PyVal)

/-- The `OutputFormat` enum from types.py. -/
inductive OutputFormat where
  | json
  | csv
  | markdown
deriving DecidableEq, Repr

/-- Lower-case hexadecimal digit, as used by `json.dumps` escapes. -/
def hexDigit (n : Nat) : Char :=
  if n < 10 then Char.ofNat (48 + n) else Char.ofNat (87 + n)

/-- Four-digit lower-case hex rendering of a code unit. -/
def hex4 (n : Nat) : List Char :=
  [hexDigit (n / 4096 % 16), hexDigit (n / 256 % 16), hexDigit (n / 16 % 16), hexDigit (n % 16)]

/-- Embeds `json.dumps` string escaping with the default `ensure_ascii=True`:
everything outside printable ASCII is escaped, non-BMP code points as a
surrogate pair. -/
def jsonEscapeChar (c : Char) : List Char :=
  if c = '"' then ['\\', '"']
  else if c = '\\' then ['\\', '\\']
  else if c = '\n' then ['\\', 'n']
  else if c = '\r' then ['\\', 'r']
  else if c = '\t' then ['\\', 't']
  else if c = '\x08' then ['\\', 'b']
  else if c = '\x0c' then ['\\', 'f']
  else if c.toNat < 0x20 ∨ 0x7E < c.toNat then
    if c.toNat ≤ 0xFFFF then '\\' :: 'u' :: hex4 c.toNat
    else
      let n := c.toNat - 0x10000
      ('\\' :: 'u' :: hex4 (0xD800 + n / 1024)) ++ ('\\' :: 'u' :: hex4 (0xDC00 + n % 1024))
  else [c]

/-- JSON rendering of a string literal. -/
def jsonStr (s : String) : String :=
  "\"" ++ (s.data.foldr (fun c acc => jsonEscapeChar c ++ acc) []).asString ++ "\""

/-- JSON rendering of one (already serialized) scalar.  After
`serialize_value` only None/bool/int/float/str occur; the remaining
branches are unreachable through `format_as_json`. -/
def jsonScalar : PyVal → String
  | .pyNone => "null"
  | .pyBool b => if b then "true" else "false"
  | .pyInt n => toString n
  | .pyFloat x => toString x
  | .pyStr s => jsonStr s
  | v => jsonStr (pyStrOfVal v)

/-- One row as a pretty-printed JSON object at the given indent level,
matching `json.dumps(..., indent=2)`. -/
def jsonObj (level : Nat) (row : List (String × PyVal)) : String :=
  if row.isEmpty then "\x7b\x7d"
  else
    let pad := (List.replicate ((level + 1) * 2) ' ').asString
    let closePad := (List.replicate (level * 2) ' ').asString
    "\x7b\n" ++
      String.intercalate ",\n"
        (row.map (fun kv => pad ++ jsonStr kv.1 ++ ": " ++ jsonScalar kv.2)) ++
      "\n" ++ closePad ++ "\x7d"

/-- Embeds `format_as_json` from formatters.py: serialize each cell, then
`json.dumps(serialized_rows, indent=2)` (an empty list renders as
`[]`). -/
def format_as_json (rows : List Row) : String :=
  let serialized := rows.map (fun row => row.map (fun kv => (kv.1, serialize_value kv.2)))
  if serialized.isEmpty then "[]"
  else
    "[\n" ++
      String.intercalate ",\n" (serialized.map (fun row => "  " ++ jsonObj 1 row)) ++
      "\n]"

/-- QUOTE_MINIMAL: a CSV field needs quoting when it contains the
delimiter, the quote character, or a line-terminator character. -/
def csvNeedsQuoting (s : String) : Bool :=
  s.data.any (fun c => c = ',' || c = '"' || c = '\r' || c = '\n')

/-- Quote a CSV field if needed, doubling embedded quote characters. -/
def csvQuoteField (s : String) : String :=
  if csvNeedsQuoting s then
    "\"" ++ (s.data.foldr (fun c acc => if c = '"' then '"' :: '"' :: acc else c :: acc) []).asString ++ "\""
  else s

/-- Python `csv.writer` turns None into the empty string and any other value
into `str(value)`. -/
def csvCell : PyVal → String
  | .pyNone => ""
  | v => pyStrOfVal v

/-- One CSV record with the default "\r\n" terminator of the writer.  A record
consisting of a single empty field is written as a quoted empty field,
as the csv module does. -/
def csvLine (cells : List String) : String :=
  match cells with
  | [c] => (if c = "" then "\"\"" else c) ++ "\r\n"
  | _ => String.intercalate "," cells ++ "\r\n"

/-- Embeds `format_as_csv` from formatters.py: empty input yields the empty
string; otherwise a header row from the column order of the first row
followed by the serialized rows. -/
def format_as_csv (rows : List Row) : String :=
  match rows with
  | [] => ""
  | r0 :: _ =>
    let columns := r0.map Prod.fst
    let headerLine := csvLine (columns.map csvQuoteField)
    let bodyLines := rows.map (fun row =>
      csvLine (columns.map (fun col =>
        match row.lookup col with
        | some v => csvQuoteField (csvCell (serialize_value v))
        | none => "")))
    headerLine ++ String.join bodyLines

/-- Python `str.ljust`: pad on the right with spaces to the width. -/
def ljust (s : String) (width : Nat) : String :=
  s ++ (List.replicate (width - s.length) ' ').asString

/-- The text placed in a markdown cell: `str(serialize_value(row[col]))`.
(The source indexes `row[col]` directly; all rows share the columns of
the first row, a missing key is modelled as None.) -/
def mdCell (row : Row) (col : String) : String :=
  pyStrOfVal (serialize_value ((row.lookup col).getD .pyNone))

/-- Embeds `format_as_markdown` from formatters.py: "No results" when empty,
otherwise a piped table whose column widths are the maximum of the
header width and every serialized cell width. -/
def format_as_markdown (rows : List Row) : String :=
  match rows with
  | [] => "No results"
  | r0 :: _ =>
    let columns := r0.map Prod.fst
    let width := fun (col : String) =>
      (rows.map (fun row => (mdCell row col).length)).foldl max col.length
    let headerLine :=
      "|" ++ String.intercalate "|" (columns.map (fun col => " " ++ ljust col (width col) ++ " ")) ++ "|"
    let sepLine :=
      "|" ++ String.intercalate "|" (columns.map (fun col => (List.replicate (width col + 2) '-').asString)) ++ "|"
    let rowLines := rows.map (fun row =>
      "|" ++ String.intercalate "|" (columns.map (fun col => " " ++ ljust (mdCell row col) (width col) ++ " ")) ++ "|")
    String.intercalate "\n" (headerLine :: sepLine :: rowLines)

/-- Embeds `format_rows` from formatters.py: dispatch on the output format. -/
def format_rows (rows : List Row) (format_type : OutputFormat) : String :=
  match format_type with
  | .json => format_as_json rows
  | .csv => format_as_csv rows
  | .markdown => format_as_markdown rows

/-- The whitespace characters that Python `str.strip()` removes (ASCII
range; Unicode spaces are out of scope for the inputs of the source). -/
def pyIsSpace (c : Char) : Bool :=
  c = ' ' || c = '\t' || c = '\n' || c = '\r' || c = '\x0b' || c = '\x0c'

/-- One pass of `re.sub(r"--.*$", "", query, flags=re.MULTILINE)`: inside
a line comment every character up to (but excluding) the next newline is
dropped.  The flag records whether we are inside a `--` comment. -/
def rlcAux : Bool → List Char → List Char
  | _, [] => []
  | true, c :: rest => if c = '\n' then c :: rlcAux false rest else rlcAux true rest
  | false, [c] => [c]
  | false, c1 :: c2 :: rest =>
    if c1 = '-' ∧ c2 = '-' then rlcAux true rest
    else c1 :: rlcAux false (c2 :: rest)

/-- Suffix after the earliest `*/` (the non-greedy close of a block
comment); `none` when the comment is never closed. -/
def findClose : List Char → Option (List Char)
  | [] => none
  | [_] => none
  | c1 :: c2 :: rest => if c1 = '*' ∧ c2 = '/' then some rest else findClose (c2 :: rest)

/-- Embeds `re.sub(r"/\*.*?\*/", "", s, flags=re.DOTALL)`: a `/*` with a later
`*/` is removed together with the enclosed text (shortest match); a `/*`
with no close stays literal and scanning moves on.  Every step consumes
at least one character, so fuel equal to the input length never runs
out. -/
def rbcFuel : Nat → List Char → List Char
  | 0, cs => cs
  | _ + 1, [] => []
  | _ + 1, [c] => [c]
  | fuel + 1, c1 :: c2 :: rest =>
    if c1 = '/' ∧ c2 = '*' then
      match findClose rest with
      | some rest2 => rbcFuel fuel rest2
      | none => c1 :: rbcFuel fuel (c2 :: rest)
    else c1 :: rbcFuel fuel (c2 :: rest)

/-- Embeds `remove_sql_comments` from validators.py: first strip `--` line
comments, then strip non-greedy `/* */` block comments. -/
def remove_sql_comments (query : String) : String :=
  let noLine := rlcAux false query.data
  (rbcFuel noLine.length noLine).asString

/-- The denylist FORBIDDEN_KEYWORDS from validators.py, in source
order. -/
def FORBIDDEN_KEYWORDS : List String :=
  ["INSERT", "UPDATE", "DELETE", "DROP", "CREATE", "ALTER",
   "TRUNCATE", "GRANT", "REVOKE", "EXECUTE", "CALL", "COPY"]

/-- A regex word character (`\w` over the ASCII range): letter, digit or
underscore. -/
def isWordChar (c : Char) : Bool :=
  c.isAlpha || c.isDigit || c = '_'

/-- Case-insensitive prefix test: when `kw` is a prefix of `text` up to
ASCII case, return the remaining suffix. -/
def ciPrefixRest : List Char → List Char → Option (List Char)
  | [], rest => some rest
  | _ :: _, [] => none
  | k :: ks, c :: cs => if k.toLower = c.toLower then ciPrefixRest ks cs else none

/-- Does `kw` match at the start of `text` with a word boundary on its
right (`\b` after the keyword)? -/
def wbAt (kw text : List Char) : Bool :=
  match ciPrefixRest kw text with
  | some [] => true
  | some (c :: _) => !isWordChar c
  | none => false

/-- The boundary `\b` before the keyword: start of string, or previous character not a
word character. -/
def boundaryBefore : Option Char → Bool
  | none => true
  | some c => !isWordChar c

/-- Scan every position of `text` (tracking the previous character) for a
word-boundary, case-insensitive occurrence of `kw`: the embedding of
`re.search(rf"\b{kw}\b", text, re.IGNORECASE)` for a keyword made of
word characters. -/
def wbSearchAux (kw : List Char) (prev : Option Char) : List Char → Bool
  | [] => boundaryBefore prev && wbAt kw []
  | c :: cs => (boundaryBefore prev && wbAt kw (c :: cs)) || wbSearchAux kw (some c) cs

/-- Word-boundary case-insensitive keyword search over a whole string. -/
def containsKeywordWB (kw text : String) : Bool :=
  wbSearchAux kw.data none text.data

/-- The error message raised for a forbidden keyword. -/
def forbiddenMsg (kw : String) : String :=
  "Query contains forbidden keyword: " ++ kw ++
    ". Only SELECT queries and read-only operations are allowed."

/-- The first denylisted keyword found in a cleaned query, in source
order (the loop in `validate_query` raises at the first match). -/
def firstForbidden (s : String) : Option String :=
  FORBIDDEN_KEYWORDS.find? (fun kw => containsKeywordWB kw s)

/-- Embeds `validate_query` from validators.py: reject empty/whitespace-only
queries, then strip comments and reject at the first denylisted keyword
found on a word boundary, case-insensitively. -/
def validate_query (query : String) : Except String Unit :=
  if query.data.all pyIsSpace then .error "Query cannot be empty"
  else
    match firstForbidden (remove_sql_comments query) with
    | some kw => .error (forbiddenMsg kw)
    | none => .ok ()

/-- The identifier character class `[a-zA-Z0-9_.]` of
`sanitize_identifier`. -/
def identCharOK (c : Char) : Bool :=
  c.isAlpha || c.isDigit || c = '_' || c = '.'

/-- Python `re.match(r"^[a-zA-Z0-9_\.]+$", s)` as a Boolean: a non-empty
run of identifier characters spanning the string — except that the
Python `$` also matches just before one trailing newline, so a trailing `"\n"`
is tolerated. -/
def identFullMatch (cs : List Char) : Bool :=
  (!cs.isEmpty && cs.all identCharOK) ||
    (cs.getLast? = some '\n' && !cs.dropLast.isEmpty && cs.dropLast.all identCharOK)

/-- Embeds `sanitize_identifier` from validators.py: reject the empty string,
reject anything the regex does not match, otherwise return the
identifier unchanged. -/
def sanitize_identifier (identifier : String) : Except String String :=
  if identifier.isEmpty then .error "Identifier cannot be empty"
  else if identFullMatch identifier.data then .ok identifier
  else
    .error ("Invalid identifier \x27" ++ identifier ++
      "\x27. Only alphanumeric characters, underscores, and dots are allowed.")

/-- Embeds `validate_timeout` from validators.py: positive and at most 300
seconds. -/
def validate_timeout (timeout : Rat) : Except String Unit :=
  if timeout ≤ 0 then .error "Timeout must be positive"
  else if 300 < timeout then .error "Timeout cannot exceed 300 seconds (5 minutes)"
  else .ok ()

/-- Embeds `QueryHistoryEntry` from types.py.  `timestamp` (a `datetime.now()`
reading) is abstracted to a tick supplied by the caller;
`execution_time_ms` is a rational. -/
structure QueryHistoryEntry where
  query : String
  timestamp : Nat
  execution_time_ms : Rat
  row_count : Nat
  format : OutputFormat
  success : Bool
  error : Option String
deriving DecidableEq, Repr

/-- The last `n` elements of a list: what `collections.deque` with
`maxlen = n` retains after appending the whole list. -/
def lastN (n : Nat) (l : List α) : List α := l.drop (l.length - n)

/-- Embeds `QueryHistory` from history.py: a deque bounded by `maxSize`,
`entries` oldest first (deque iteration order).  The lock only
serializes access and is not modelled. -/
structure QueryHistory where
  maxSize : Nat
  entries : List QueryHistoryEntry
deriving DecidableEq, Repr

/-- A freshly constructed `QueryHistory(max_size)`. -/
def QueryHistory.mk0 (maxSize : Nat) : QueryHistory := ⟨maxSize, []⟩

/-- Embeds `QueryHistory.add_query`: build an entry and append it; the deque
evicts from the left once `maxSize` is exceeded. -/
def QueryHistory.add_query (h : QueryHistory) (query : String) (timestamp : Nat)
    (execution_time_ms : Rat) (row_count : Nat) (format_type : OutputFormat)
    (success : Bool) (error : Option String) : QueryHistory :=
  ⟨h.maxSize,
    lastN h.maxSize
      (h.entries ++ [⟨query, timestamp, execution_time_ms, row_count, format_type, success, error⟩])⟩

/-- Embeds `QueryHistory.get_recent`: the reversed entry list (newest first),
truncated to `limit`. -/
def QueryHistory.get_recent (h : QueryHistory) (limit : Nat) : List QueryHistoryEntry :=
  h.entries.reverse.take limit

/-- Embeds `QueryHistory.clear`. -/
def QueryHistory.clear (h : QueryHistory) : QueryHistory := ⟨h.maxSize, []⟩

/-- Embeds `QueryHistory.get_count`. -/
def QueryHistory.get_count (h : QueryHistory) : Nat := h.entries.length

/-- Record one already-built entry (the field-by-field call that
`add_query` performs). -/
def QueryHistory.recordEntry (h : QueryHistory) (e : QueryHistoryEntry) : QueryHistory :=
  h.add_query e.query e.timestamp e.execution_time_ms e.row_count e.format e.success e.error

/-- Record a sequence of entries in order. -/
def recordAll (h : QueryHistory) (es : List QueryHistoryEntry) : QueryHistory :=
  es.foldl QueryHistory.recordEntry h

/-- The validated `DatabaseConfig` record from types.py. -/
structure DatabaseConfig where
  host : String
  port : Int
  database : String
  user : String
  password : String
  pool_min_size : Int
  pool_max_size : Int
  command_timeout : Rat
  connection_timeout : Rat
deriving DecidableEq, Repr

/-- The keyword arguments offered to the `DatabaseConfig` constructor;
`none` means the field was absent. -/
structure DatabaseConfigArgs where
  host : Option String
  port : Option Int
  database : Option String
  user : Option String
  password : Option String
  pool_min_size : Option Int
  pool_max_size : Option Int
  command_timeout : Option Rat
  connection_timeout : Option Rat
deriving DecidableEq, Repr

/-- Pydantic construction of `DatabaseConfig`: host, database, user and
password are required; port defaults to 5432, pool sizes to 2/10,
timeouts to 60/10; the field validators check port ∈ [1, 65535], each
pool size ≥ 1 and each timeout > 0.  types.py has no validator relating
pool_max_size to pool_min_size. -/
def mkDatabaseConfig (a : DatabaseConfigArgs) : Except String DatabaseConfig :=
  match a.host, a.database, a.user, a.password with
  | some host, some database, some user, some password =>
    let port := a.port.getD 5432
    let pmin := a.pool_min_size.getD 2
    let pmax := a.pool_max_size.getD 10
    let cto := a.command_timeout.getD 60
    let nto := a.connection_timeout.getD 10
    if port < 1 ∨ 65535 < port then .error "Port must be between 1 and 65535"
    else if pmin < 1 then .error "Pool size must be at least 1"
    else if pmax < 1 then .error "Pool size must be at least 1"
    else if cto ≤ 0 then .error "Timeout must be positive"
    else if nto ≤ 0 then .error "Timeout must be positive"
    else .ok ⟨host, port, database, user, password, pmin, pmax, cto, nto⟩
  | _, _, _, _ => .error "Field required"

/-- A parsed `QueryDatabaseInput` from types.py. -/
structure QueryDatabaseInputParsed where
  query : String
  format : OutputFormat
  timeout : Option Rat
deriving DecidableEq, Repr

/-- The JSON arguments handed to the query_database tool; `none` marks
an absent field. -/
structure QueryDbArgs where
  query : Option String
  format : Option OutputFormat
  timeout : Option Rat
deriving DecidableEq, Repr

/-- Pydantic parse of `QueryDatabaseInput`: query is required, format
defaults to json, and the timeout validator accepts only values in
(0, 300] when a timeout is supplied. -/
def parseQueryDatabaseInput (a : QueryDbArgs) : Except String QueryDatabaseInputParsed :=
  match a.query with
  | none => .error "Field required"
  | some q =>
    match a.timeout with
    | none => .ok ⟨q, a.format.getD .json, none⟩
    | some t =>
      if t ≤ 0 then .error "Timeout must be positive"
      else if 300 < t then .error "Timeout cannot exceed 300 seconds"
      else .ok ⟨q, a.format.getD .json, some t⟩

/-- The success payload of `query_database_tool`
(`execution_time_ms` keeps the measured value; `round(·, 2)` on an IEEE
float is abstracted). -/
structure QueryToolOutput where
  rows : List Row
  row_count : Nat
  columns : List String
  execution_time_ms : Rat
  format : OutputFormat
  formatted_output : String
deriving DecidableEq, Repr

/-- Embeds `query_database_tool` from tools.py.  The awaited database call is
abstracted to its outcome `dbResult`, the wall clock to `elapsedMs` and
`now`.  The control flow mirrors the source exactly: argument parsing
and `validate_query` raise before the try block (so before any history
write); inside the try block a database failure is recorded as a failed
entry with row_count 0 and the error text, then re-raised, while a
success is recorded and the result assembled. -/
def query_database_tool (args : QueryDbArgs) (dbResult : Except String (List Row))
    (elapsedMs : Rat) (now : Nat) (h : QueryHistory) :
    Except String QueryToolOutput × QueryHistory :=
  match parseQueryDatabaseInput args with
  | .error e => (.error e, h)
  | .ok input =>
    match validate_query input.query with
    | .error e => (.error e, h)
    | .ok _ =>
      match dbResult with
      | .ok rows =>
        let columns := match rows with | [] => [] | r :: _ => r.map Prod.fst
        let formatted := format_rows rows input.format
        let h2 := h.add_query input.query now elapsedMs rows.length input.format true none
        (.ok ⟨rows, rows.length, columns, elapsedMs, input.format, formatted⟩, h2)
      | .error e =>
        let h2 := h.add_query input.query now elapsedMs 0 input.format false (some e)
        (.error e, h2)

/-- Pydantic parse of `GetQueryHistoryInput`: limit defaults to 20
(defaults are not validated), an explicit limit must lie in [1, 100]. -/
def parseGetQueryHistoryInput (limit : Option Int) : Except String Int :=
  match limit with
  | none => .ok 20
  | some v =>
    if v < 1 then .error "Limit must be at least 1"
    else if 100 < v then .error "Limit cannot exceed 100"
    else .ok v

/-- Embeds `get_query_history_tool` from tools.py: parse the arguments, then
read the recent entries (newest first) from the history buffer. -/
def get_query_history_tool (limit : Option Int) (h : QueryHistory) :
    Except String (List QueryHistoryEntry) :=
  match parseGetQueryHistoryInput limit with
  | .error e => .error e
  | .ok l => .ok (h.get_recent l.toNat)

/-- Concrete history entries used by witnesses. -/
def entryA : QueryHistoryEntry := ⟨"q1", 0, 0, 0, .json, true, none⟩

/-- A second, distinct concrete history entry. -/
def entryB : QueryHistoryEntry := ⟨"q2", 1, 0, 0, .json, true, none⟩

/-- A one-cell sample row. -/
def sampleRow : Row := [("x", PyVal.pyInt 1)]

/-- The output `query_database_tool` produces for `sampleRow` under the
json format. -/
def sampleOut : QueryToolOutput :=
  ⟨[sampleRow], 1, ["x"], 0, .json, format_rows [sampleRow] .json⟩

/-- The history state after the sample successful call. -/
def sampleH2 : QueryHistory :=
  (QueryHistory.mk0 100).add_query "SELECT 1" 0 0 1 .json true none

/-- Constructor arguments with pool_max_size (2) below pool_min_size
(5). -/
def badPoolArgs : DatabaseConfigArgs :=
  ⟨some "h", none, some "d", some "u", some "p", some 5, some 2, none, none⟩

/-- C9: serialize_value is idempotent — for every supported scalar value
v, serialize_value (serialize_value v) = serialize_value v, so
serializing an already-serialized cell never changes it. -/
theorem C9_serialize_value_idempotent (v : PyVal) :
    serialize_value (serialize_value v) = serialize_value v := by
  cases v <;> rfl

/-- C6: formatting the empty row set yields exactly the empty string for
CSV (not a header-only CSV), the literal text "No results" for Markdown,
and "[]" for JSON. -/
theorem C6_empty_row_set_formatting :
    format_as_csv [] = "" ∧ format_as_markdown [] = "No results" ∧
      format_as_json [] = "[]" :=
  ⟨rfl, rfl, rfl⟩

/-- C3 (code bug witness): sanitize_identifier returns "abc\n" unchanged
even though the newline is outside [A-Za-z0-9_.] — the Python `$` in
`re.match(r"^[a-zA-Z0-9_\.]+$", ·)` also matches just before a single
trailing newline, contradicting the documented contract of the function:
rejecting identifiers with invalid characters. -/
theorem C3_sanitize_identifier_trailing_newline :
    sanitize_identifier "abc\n" = .ok "abc\n" ∧
      identCharOK '\n' = false ∧ '\n' ∈ "abc\n".data := by
  refine ⟨rfl, rfl, ?_⟩
  decide

/-- C5 counterexample: construction of a DatabaseConfig whose
pool_max_size (2) is strictly below its pool_min_size (5) succeeds,
refuting the claim that it must fail. -/
theorem C5_pool_bound_counterexample :
    mkDatabaseConfig badPoolArgs = .ok ⟨"h", 5432, "d", "u", "p", 5, 2, 60, 10⟩ ∧
      badPoolArgs.pool_max_size.getD 10 < badPoolArgs.pool_min_size.getD 2 := by
  exact ⟨rfl, by decide⟩

/-- C2 counterexample: calling query_database with
query = "DELETE FROM t" raises the validation error naming DELETE, but
the history buffer stays empty — no failed entry is recorded, because
validate_query runs before the try/except block in tools.py. -/
theorem C2_validation_failure_not_recorded :
    (query_database_tool ⟨some "DELETE FROM t", none, none⟩ (.ok []) 0 0
        (QueryHistory.mk0 100)).1 = .error (forbiddenMsg "DELETE") ∧
      ((query_database_tool ⟨some "DELETE FROM t", none, none⟩ (.ok []) 0 0
        (QueryHistory.mk0 100)).2).get_count = 0 :=
  ⟨rfl, rfl⟩

theorem rlcAux_mem_aux (c : Char) :
    ∀ (n : Nat) (b : Bool) (cs : List Char), cs.length ≤ n →
      c ∈ rlcAux b cs → c ∈ cs := by
  intro n
  induction n with
  | zero =>
    intro b cs hlen hc
    cases cs with
    | nil => simp [rlcAux] at hc
    | cons c0 tl => simp at hlen
  | succ n ih =>
    intro b cs hlen hc
    cases cs with
    | nil => simp [rlcAux] at hc
    | cons c0 tl =>
      cases b with
      | true =>
        by_cases h0 : c0 = '\n'
        · simp only [rlcAux, if_pos h0] at hc
          rcases List.mem_cons.mp hc with h | h
          · exact List.mem_cons.mpr (Or.inl h)
          · exact List.mem_cons_of_mem _ (ih false tl (by simp at hlen; omega) h)
        · simp only [rlcAux, if_neg h0] at hc
          exact List.mem_cons_of_mem _ (ih true tl (by simp at hlen; omega) hc)
      | false =>
        cases tl with
        | nil => simpa [rlcAux] using hc
        | cons c1 tl1 =>
          by_cases h01 : c0 = '-' ∧ c1 = '-'
          · simp only [rlcAux, if_pos h01] at hc
            have := ih true tl1 (by simp at hlen; omega) hc
            exact List.mem_cons_of_mem _ (List.mem_cons_of_mem _ this)
          · simp only [rlcAux, if_neg h01] at hc
            rcases List.mem_cons.mp hc with h | h
            · exact List.mem_cons.mpr (Or.inl h)
            · exact List.mem_cons_of_mem _
                (ih false (c1 :: tl1) (by simp at hlen ⊢; omega) h)

theorem rlcAux_mem (c : Char) (b : Bool) (cs : List Char) (hc : c ∈ rlcAux b cs) :
    c ∈ cs :=
  rlcAux_mem_aux c cs.length b cs le_rfl hc

theorem findClose_mem :
    ∀ (l l2 : List Char), findClose l = some l2 → ∀ c ∈ l2, c ∈ l := by
  intro l
  induction l with
  | nil => intro l2 h; simp [findClose] at h
  | cons c1 tl ih =>
    intro l2 h c hc
    cases tl with
    | nil => simp [findClose] at h
    | cons c2 tl2 =>
      by_cases h12 : c1 = '*' ∧ c2 = '/'
      · simp only [findClose, if_pos h12, Option.some.injEq] at h
        subst h
        exact List.mem_cons_of_mem _ (List.mem_cons_of_mem _ hc)
      · simp only [findClose, if_neg h12] at h
        exact List.mem_cons_of_mem _ (ih l2 h c hc)

theorem rbcFuel_mem :
    ∀ (fuel : Nat) (cs : List Char) (c : Char), c ∈ rbcFuel fuel cs → c ∈ cs := by
  intro fuel
  induction fuel with
  | zero => intro cs c hc; simpa [rbcFuel] using hc
  | succ fuel ih =>
    intro cs c hc
    cases cs with
    | nil => simp [rbcFuel] at hc
    | cons c1 tl =>
      cases tl with
      | nil => simpa [rbcFuel] using hc
      | cons c2 tl2 =>
        by_cases h12 : c1 = '/' ∧ c2 = '*'
        · cases hfc : findClose tl2 with
          | some rest2 =>
            simp only [rbcFuel, if_pos h12, hfc] at hc
            exact List.mem_cons_of_mem _
              (List.mem_cons_of_mem _ (findClose_mem tl2 rest2 hfc c (ih _ c hc)))
          | none =>
            simp only [rbcFuel, if_pos h12, hfc] at hc
            rcases List.mem_cons.mp hc with h | h
            · exact List.mem_cons.mpr (Or.inl h)
            · exact List.mem_cons_of_mem _ (ih (c2 :: tl2) c h)
        · simp only [rbcFuel, if_neg h12] at hc
          rcases List.mem_cons.mp hc with h | h
          · exact List.mem_cons.mpr (Or.inl h)
          · exact List.mem_cons_of_mem _ (ih (c2 :: tl2) c h)

theorem remove_sql_comments_space (q : String) (hq : q.data.all pyIsSpace = true) :
    ∀ c ∈ (remove_sql_comments q).data, pyIsSpace c = true := by
  intro c hc
  have h1 : c ∈ rlcAux false q.data := by
    have hdata : (remove_sql_comments q).data =
        rbcFuel (rlcAux false q.data).length (rlcAux false q.data) := rfl
    rw [hdata] at hc
    exact rbcFuel_mem _ _ c hc
  have h2 : c ∈ q.data := rlcAux_mem c false q.data h1
  exact List.all_eq_true.mp hq c h2

theorem pyIsSpace_cases (c : Char) (hc : pyIsSpace c = true) :
    c = ' ' ∨ c = '\t' ∨ c = '\n' ∨ c = '\r' ∨ c = '\x0b' ∨ c = '\x0c' := by
  simp [pyIsSpace] at hc
  tauto

theorem upper_ne_space_toLower (k : Char) (hk : 'a' ≤ k.toLower ∧ k.toLower ≤ 'z') :
    ∀ c, pyIsSpace c = true → ¬ k.toLower = c.toLower := by
  intro c hc heq
  rcases pyIsSpace_cases c hc with h | h | h | h | h | h <;>
    subst h <;> rw [heq] at hk <;> exact absurd hk (by decide)

theorem wbAt_space_false (k : Char) (ks text : List Char)
    (htext : ∀ c ∈ text, pyIsSpace c = true)
    (hk : ∀ c, pyIsSpace c = true → ¬ k.toLower = c.toLower) :
    wbAt (k :: ks) text = false := by
  cases text with
  | nil => rfl
  | cons c cs =>
    have hne : ¬ k.toLower = c.toLower := hk c (htext c (List.mem_cons_self c cs))
    simp [wbAt, ciPrefixRest, hne]

theorem wbSearchAux_space_false (k : Char) (ks : List Char)
    (hk : ∀ c, pyIsSpace c = true → ¬ k.toLower = c.toLower) :
    ∀ (text : List Char) (prev : Option Char),
      (∀ c ∈ text, pyIsSpace c = true) → wbSearchAux (k :: ks) prev text = false := by
  intro text
  induction text with
  | nil => intro prev _; simp [wbSearchAux, wbAt, ciPrefixRest]
  | cons c cs ih =>
    intro prev htext
    have h1 : wbAt (k :: ks) (c :: cs) = false := wbAt_space_false k ks (c :: cs) htext hk
    have h2 := ih (some c) (fun x hx => htext x (List.mem_cons_of_mem _ hx))
    simp [wbSearchAux, h1, h2]

theorem containsKeywordWB_space_false (kw : String) (hkw : kw ∈ FORBIDDEN_KEYWORDS)
    (text : String) (htext : ∀ c ∈ text.data, pyIsSpace c = true) :
    containsKeywordWB kw text = false := by
  simp only [FORBIDDEN_KEYWORDS, List.mem_cons, List.not_mem_nil, or_false] at hkw
  rcases hkw with h | h | h | h | h | h | h | h | h | h | h | h <;> subst h <;>
    simp only [containsKeywordWB] <;>
    first
    | exact wbSearchAux_space_false 'I' _ (upper_ne_space_toLower 'I' (by decide)) text.data none htext
    | exact wbSearchAux_space_false 'U' _ (upper_ne_space_toLower 'U' (by decide)) text.data none htext
    | exact wbSearchAux_space_false 'D' _ (upper_ne_space_toLower 'D' (by decide)) text.data none htext
    | exact wbSearchAux_space_false 'C' _ (upper_ne_space_toLower 'C' (by decide)) text.data none htext
    | exact wbSearchAux_space_false 'A' _ (upper_ne_space_toLower 'A' (by decide)) text.data none htext
    | exact wbSearchAux_space_false 'T' _ (upper_ne_space_toLower 'T' (by decide)) text.data none htext
    | exact wbSearchAux_space_false 'G' _ (upper_ne_space_toLower 'G' (by decide)) text.data none htext
    | exact wbSearchAux_space_false 'R' _ (upper_ne_space_toLower 'R' (by decide)) text.data none htext
    | exact wbSearchAux_space_false 'E' _ (upper_ne_space_toLower 'E' (by decide)) text.data none htext

/-- C1: validate_query rejects a query with an error naming a denylisted
keyword if and only if, after stripping `--` line comments and
non-greedy `/* */` block comments, the remaining text contains one of
the twelve denylisted keywords case-insensitively on word boundaries; in
particular a keyword inside a comment does not by itself cause
rejection, and a keyword occurring as a strict substring of a longer
identifier (inserted_at) is accepted. -/
theorem C1_validate_query_denylist :
    (∀ q : String,
        (∃ kw, kw ∈ FORBIDDEN_KEYWORDS ∧ validate_query q = .error (forbiddenMsg kw)) ↔
          (∃ kw, kw ∈ FORBIDDEN_KEYWORDS ∧
            containsKeywordWB kw (remove_sql_comments q) = true)) ∧
    validate_query "SELECT 1 -- DELETE" = .ok () ∧
    validate_query "/* DROP TABLE t */ SELECT 1" = .ok () ∧
    validate_query "SELECT inserted_at FROM t" = .ok () ∧
    validate_query "delete FROM t" = .error (forbiddenMsg "DELETE") := by
  refine ⟨?_, rfl, rfl, rfl, rfl⟩
  intro q
  by_cases hws : q.data.all pyIsSpace = true
  · constructor
    · rintro ⟨kw, _, heq⟩
      rw [validate_query, if_pos hws] at heq
      have hmsg : "Query cannot be empty" = forbiddenMsg kw := by
        simpa using heq
      have hlen := congrArg String.length hmsg
      rw [forbiddenMsg, String.length_append, String.length_append] at hlen
      have h21 : ("Query cannot be empty" : String).length = 21 := by decide
      have h34 : ("Query contains forbidden keyword: " : String).length = 34 := by decide
      have h59 :
          (". Only SELECT queries and read-only operations are allowed." : String).length
            = 59 := by decide
      rw [h21, h34, h59] at hlen
      omega
    · rintro ⟨kw, hkw, hsearch⟩
      have hfalse := containsKeywordWB_space_false kw hkw (remove_sql_comments q)
        (remove_sql_comments_space q hws)
      rw [hfalse] at hsearch
      exact absurd hsearch (by simp)
  · constructor
    · rintro ⟨kw, hkw, heq⟩
      rw [validate_query, if_neg hws] at heq
      cases hf : firstForbidden (remove_sql_comments q) with
      | none => rw [hf] at heq; exact absurd heq (by simp)
      | some kw2 =>
        rw [firstForbidden] at hf
        have hp := List.find?_some hf
        exact ⟨kw2, List.mem_of_find?_eq_some hf, hp⟩
    · rintro ⟨kw, hkw, hsearch⟩
      cases hf : firstForbidden (remove_sql_comments q) with
      | none =>
        rw [firstForbidden] at hf
        exact absurd hsearch (List.find?_eq_none.mp hf kw hkw)
      | some kw2 =>
        refine ⟨kw2, ?_, by rw [validate_query, if_neg hws, hf]⟩
        rw [firstForbidden] at hf
        exact List.mem_of_find?_eq_some hf

theorem lastN_length_le (n : Nat) (l : List α) : (lastN n l).length ≤ n := by
  simp only [lastN, List.length_drop]
  omega

theorem lastN_of_length_le {n : Nat} {l : List α} (h : l.length ≤ n) : lastN n l = l := by
  simp only [lastN]
  have : l.length - n = 0 := by omega
  rw [this, List.drop_zero]

theorem lastN_append (n : Nat) (m es : List α) :
    lastN n (lastN n m ++ es) = lastN n (m ++ es) := by
  simp only [lastN]
  rw [show (m.drop (m.length - n) ++ es) = (m ++ es).drop (m.length - n) from
        (List.drop_append_of_le_length (by omega)).symm,
      List.drop_drop]
  congr 1
  simp only [List.length_drop, List.length_append]
  omega

theorem recordAll_entries (C : Nat) :
    ∀ (es : List QueryHistoryEntry) (l : List QueryHistoryEntry), l.length ≤ C →
      (recordAll ⟨C, l⟩ es).entries = lastN C (l ++ es) := by
  intro es
  induction es with
  | nil =>
    intro l hl
    simp only [recordAll, List.foldl_nil, List.append_nil]
    exact (lastN_of_length_le hl).symm
  | cons e es ih =>
    intro l hl
    have hstep : recordAll ⟨C, l⟩ (e :: es) = recordAll ⟨C, lastN C (l ++ [e])⟩ es := rfl
    rw [hstep, ih (lastN C (l ++ [e])) (lastN_length_le C _), lastN_append]
    simp

/-- C4: starting from an empty history of capacity C, any sequence of
record operations leaves exactly the last C inserted entries (so the
history never exceeds C); recent(limit) is the reversed suffix truncated
to limit, of length at most min(limit, C); and after C+1 insertions the
oldest entry is gone and recent(C) returns the newest C entries newest
first. -/
theorem C4_history_bounded_fifo (C : Nat) (es : List QueryHistoryEntry) :
    (recordAll (QueryHistory.mk0 C) es).entries = lastN C es ∧
    (recordAll (QueryHistory.mk0 C) es).get_count ≤ C ∧
    (∀ limit : Nat,
      (recordAll (QueryHistory.mk0 C) es).get_recent limit = ((lastN C es).reverse).take limit ∧
      ((recordAll (QueryHistory.mk0 C) es).get_recent limit).length ≤ min limit C) ∧
    (es.length = C + 1 →
      (recordAll (QueryHistory.mk0 C) es).entries = es.drop 1 ∧
      (recordAll (QueryHistory.mk0 C) es).get_recent C = (es.drop 1).reverse ∧
      ∀ e0, es.head? = some e0 → e0 ∉ es.drop 1 →
        e0 ∉ (recordAll (QueryHistory.mk0 C) es).entries) := by
  have hmain : (recordAll (QueryHistory.mk0 C) es).entries = lastN C es := by
    have := recordAll_entries C es [] (by simp)
    simpa using this
  refine ⟨hmain, ?_, ?_, ?_⟩
  · simp only [QueryHistory.get_count, hmain]
    exact lastN_length_le C es
  · intro limit
    constructor
    · simp only [QueryHistory.get_recent, hmain]
    · simp only [QueryHistory.get_recent, hmain, List.length_take, List.length_reverse]
      have := lastN_length_le C es
      omega
  · intro hlen
    have hdrop : lastN C es = es.drop 1 := by
      simp only [lastN, hlen]
      congr 1
      omega
    refine ⟨hmain.trans hdrop, ?_, ?_⟩
    · simp only [QueryHistory.get_recent, hmain, hdrop]
      apply List.take_of_length_le
      simp only [List.length_reverse, List.length_drop, hlen]
      omega
    · intro e0 _ hnot
      rw [hmain, hdrop]
      exact hnot

/-- Witness for C4 at capacity 1 with two distinct entries: the first
entry is evicted and recent(1) returns only the newer one. -/
theorem C4_history_bounded_fifo_witness :
    (recordAll (QueryHistory.mk0 1) [entryA, entryB]).get_recent 1 = [entryB] ∧
      entryA ∉ (recordAll (QueryHistory.mk0 1) [entryA, entryB]).entries := by
  obtain ⟨-, -, -, h⟩ := C4_history_bounded_fifo 1 [entryA, entryB]
  obtain ⟨-, hrec, habs⟩ := h (by decide)
  refine ⟨?_, habs entryA rfl (by decide)⟩
  rw [hrec]
  rfl

/-- C2 (amended): for a query_database call that passes argument parsing,
(a) if query validation also passes and the database execution fails,
exactly one failed entry is appended to the history — row_count 0,
success false, carrying the error message — and the error is re-raised;
(b) if query validation fails (e.g. a denylisted keyword), the
validation error is raised to the caller and the history is left
untouched, because validate_query runs before the try/except block. -/
theorem C2_failure_recording (args : QueryDbArgs) (input : QueryDatabaseInputParsed)
    (hparse : parseQueryDatabaseInput args = .ok input) :
    (∀ (e : String) (elapsedMs : Rat) (now : Nat) (h : QueryHistory),
      validate_query input.query = .ok () →
        query_database_tool args (.error e) elapsedMs now h =
          (.error e, h.add_query input.query now elapsedMs 0 input.format false (some e))) ∧
    (∀ (ve : String) (dbResult : Except String (List Row)) (elapsedMs : Rat)
        (now : Nat) (h : QueryHistory),
      validate_query input.query = .error ve →
        query_database_tool args dbResult elapsedMs now h = (.error ve, h)) := by
  constructor
  · intro e elapsedMs now h hval
    simp only [query_database_tool, hparse, hval]
  · intro ve dbResult elapsedMs now h hval
    simp only [query_database_tool, hparse, hval]

/-- Witness for C2: a parsed call whose database execution fails with
"boom" re-raises it and appends the single failed entry. -/
theorem C2_failure_recording_witness :
    query_database_tool ⟨some "SELECT 1", none, none⟩ (.error "boom") 0 0
        (QueryHistory.mk0 100) =
      (.error "boom",
        (QueryHistory.mk0 100).add_query "SELECT 1" 0 0 0 .json false (some "boom")) :=
  (C2_failure_recording ⟨some "SELECT 1", none, none⟩ ⟨"SELECT 1", .json, none⟩ rfl).1
    "boom" 0 0 (QueryHistory.mk0 100) rfl

/-- C10: every successful query_database call returns a row_count equal
to the length of the returned rows, and a columns list that is the key
order of the first returned row when rows is non-empty and empty when
the result set is empty. -/
theorem C10_result_shape (args : QueryDbArgs) (dbResult : Except String (List Row))
    (elapsedMs : Rat) (now : Nat) (h h2 : QueryHistory) (out : QueryToolOutput)
    (hrun : query_database_tool args dbResult elapsedMs now h = (.ok out, h2)) :
    out.row_count = out.rows.length ∧
      out.columns = (match out.rows with
        | [] => ([] : List String)
        | r :: _ => r.map Prod.fst) := by
  cases hparse : parseQueryDatabaseInput args with
  | error e => simp only [query_database_tool, hparse] at hrun; simp at hrun
  | ok input =>
    cases hval : validate_query input.query with
    | error e =>
      simp only [query_database_tool, hparse, hval] at hrun
      simp at hrun
    | ok u =>
      cases u
      cases dbResult with
      | error e =>
        simp only [query_database_tool, hparse, hval] at hrun
        simp at hrun
      | ok rows =>
        simp only [query_database_tool, hparse, hval] at hrun
        simp only [Prod.mk.injEq, Except.ok.injEq] at hrun
        rw [← hrun.1]
        exact ⟨rfl, rfl⟩

/-- Witness for C10 on a concrete one-row result. -/
theorem C10_result_shape_witness :
    sampleOut.row_count = sampleOut.rows.length ∧
      sampleOut.columns = (match sampleOut.rows with
        | [] => ([] : List String)
        | r :: _ => r.map Prod.fst) :=
  C10_result_shape ⟨some "SELECT 1", none, none⟩ (.ok [sampleRow]) 0 0
    (QueryHistory.mk0 100) sampleH2 sampleOut rfl

/-- C5 (amended): DatabaseConfig construction succeeds exactly when the
four required fields are present, the (defaulted) port lies in
[1, 65535], both (defaulted) pool sizes are at least 1 and both
(defaulted) timeouts are positive.  The source has no validator relating
pool_max_size to pool_min_size, so pool_max_size < pool_min_size does
not make construction fail. -/
theorem C5_config_construction (a : DatabaseConfigArgs) :
    (∃ c, mkDatabaseConfig a = .ok c) ↔
      (a.host.isSome = true ∧ a.database.isSome = true ∧ a.user.isSome = true ∧
        a.password.isSome = true ∧
        1 ≤ a.port.getD 5432 ∧ a.port.getD 5432 ≤ 65535 ∧
        1 ≤ a.pool_min_size.getD 2 ∧ 1 ≤ a.pool_max_size.getD 10 ∧
        0 < a.command_timeout.getD 60 ∧ 0 < a.connection_timeout.getD 10) := by
  obtain ⟨h?, p?, d?, u?, pw?, mn?, mx?, ct?, nt?⟩ := a
  cases h? <;> cases d? <;> cases u? <;> cases pw? <;>
    simp only [mkDatabaseConfig, Option.isSome_none, Option.isSome_some] <;>
    try simp
  constructor
  · rintro ⟨c, hc⟩
    split_ifs at hc
    simp_all
  · rintro ⟨hp1, hp2, hmn, hmx, hct, hnt⟩
    split_ifs with h1 h2 h3 h4 h5
    · omega
    · omega
    · omega
    · exact absurd hct (by simpa using h4)
    · exact absurd hnt (by simpa using h5)
    · exact ⟨_, rfl⟩

/-- C7: get_query_history rejects a limit outside [1, 100] during
argument validation — the result is an error that does not depend on the
history buffer, which is therefore never queried — and an absent limit
defaults to 20. -/
theorem C7_history_limit_validation :
    (∀ v : Int, v < 1 ∨ 100 < v →
      ∀ h h2 : QueryHistory,
        get_query_history_tool (some v) h =
          .error (if v < 1 then "Limit must be at least 1" else "Limit cannot exceed 100") ∧
        get_query_history_tool (some v) h = get_query_history_tool (some v) h2) ∧
    (∀ h : QueryHistory, get_query_history_tool none h = .ok (h.get_recent 20)) := by
  constructor
  · intro v hv h h2
    rcases hv with hv | hv
    · simp [get_query_history_tool, parseGetQueryHistoryInput, hv]
    · have hge : ¬ v < 1 := by omega
      simp [get_query_history_tool, parseGetQueryHistoryInput, hge, hv]
  · intro h
    rfl

/-- Witness for C7 at the boundary inputs 0 and 101. -/
theorem C7_history_limit_validation_witness :
    get_query_history_tool (some 0) (QueryHistory.mk0 100) =
        .error "Limit must be at least 1" ∧
      get_query_history_tool (some 101) (QueryHistory.mk0 100) =
        .error "Limit cannot exceed 100" := by
  constructor
  · have h := (C7_history_limit_validation.1 0 (by omega)
      (QueryHistory.mk0 100) (QueryHistory.mk0 100)).1
    simpa using h
  · have h := (C7_history_limit_validation.1 101 (by omega)
      (QueryHistory.mk0 100) (QueryHistory.mk0 100)).1
    simpa using h

/-- C8: a supplied query_database timeout is accepted by argument
validation exactly when it lies in (0, 300]; an out-of-range timeout
makes the call fail during parsing, independently of the database
outcome and without touching the history. -/
theorem C8_timeout_validation :
    (∀ (q : String) (fmt : Option OutputFormat) (t : Rat),
      (∃ input, parseQueryDatabaseInput ⟨some q, fmt, some t⟩ = .ok input) ↔
        (0 < t ∧ t ≤ 300)) ∧
    (∀ (args : QueryDbArgs) (t : Rat), args.timeout = some t → ¬(0 < t ∧ t ≤ 300) →
      ∀ (dbResult dbResult2 : Except String (List Row)) (elapsedMs : Rat) (now : Nat)
        (h : QueryHistory),
        (query_database_tool args dbResult elapsedMs now h).2 = h ∧
        query_database_tool args dbResult elapsedMs now h =
          query_database_tool args dbResult2 elapsedMs now h ∧
        ∃ msg, (query_database_tool args dbResult elapsedMs now h).1 = .error msg) := by
  constructor
  · intro q fmt t
    constructor
    · rintro ⟨input, hinput⟩
      simp only [parseQueryDatabaseInput] at hinput
      split_ifs at hinput with h1 h2
      constructor <;> linarith
    · rintro ⟨h1, h2⟩
      refine ⟨⟨q, fmt.getD .json, some t⟩, ?_⟩
      simp only [parseQueryDatabaseInput]
      rw [if_neg (by linarith), if_neg (by linarith)]
  · intro args t htimeout hrange dbResult dbResult2 elapsedMs now h
    have hparse : ∃ msg, parseQueryDatabaseInput args = .error msg := by
      cases hq : args.query with
      | none => exact ⟨"Field required", by simp [parseQueryDatabaseInput, hq]⟩
      | some q =>
        by_cases ht : t ≤ 0
        · exact ⟨"Timeout must be positive",
            by simp [parseQueryDatabaseInput, hq, htimeout, ht]⟩
        · have h300 : 300 < t := by
            by_contra hc
            exact hrange ⟨by linarith, by linarith⟩
          exact ⟨"Timeout cannot exceed 300 seconds",
            by simp [parseQueryDatabaseInput, hq, htimeout, ht, h300]⟩
    obtain ⟨msg, hmsg⟩ := hparse
    refine ⟨?_, ?_, msg, ?_⟩ <;> simp [query_database_tool, hmsg]

/-- Witness for C8 at the rejected timeout 301. -/
theorem C8_timeout_validation_witness :
    (query_database_tool ⟨some "SELECT 1", none, some 301⟩ (.ok []) 0 0
        (QueryHistory.mk0 100)).2 = QueryHistory.mk0 100 ∧
      ∃ msg, (query_database_tool ⟨some "SELECT 1", none, some 301⟩ (.ok []) 0 0
        (QueryHistory.mk0 100)).1 = .error msg := by
  have h := C8_timeout_validation.2 ⟨some "SELECT 1", none, some 301⟩ 301 rfl
    (by norm_num) (.ok []) (.ok []) 0 0 (QueryHistory.mk0 100)
  exact ⟨h.1, h.2.2⟩

end PostgresMcp
